import Mathlib

/-!
Verification of the stream-recorder-to-S3 integration.

The development shallowly embeds the core of
`custom_components/stream_recorder_to_s3/switch.py` and
`custom_components/stream_recorder_to_s3/config_flow.py`:

* the chunk-accumulation logic of `upload_to_s3_sync` (lines 97-137):
  bytes read from the ffmpeg pipe are appended to an in-memory buffer,
  which is flushed as an S3 part whenever its size strictly exceeds
  5 MiB, with a final flush of any remainder at end of stream;
* the whole session loop (`upload_to_s3_sync`, `start_stream_to_s3`,
  `stop_stream_to_s3`, `async_turn_on`) as a state machine producing a
  trace of externally observable events, driven by a script describing
  the behaviour of the external world (ffmpeg reads, S3 call outcomes)
  and by the time at which an external stop command flips the
  `_attr_is_on` flag (measured in number of reads of that flag);
* the stream-URL validation loop of `config_flow.validate_input`.

Modelling conventions: byte strings are represented by their length
(a `Nat`); the shared `_attr_is_on` flag is the pair of the internally
assigned value `isOn` and a count `ticks` of reads performed on it, an
external stop command at flag-read `k` making every read from `k` on
return `false`; `abort_multipart_upload` is modelled as succeeding
(best effort); the body of a `with Popen` block together with its
`finally` clause is flattened into explicit event sequences.
-/
/-- Flush threshold of the byte buffer: `5 * 1024 * 1024` in
`upload_to_s3_sync` (line 104). -/
def threshold : Nat := 5 * 1024 * 1024

/-- Size of one read from the ffmpeg pipe: `1024 * 1024` in
`upload_to_s3_sync` (line 99). -/
def readUnit : Nat := 1024 * 1024

/-- Buffer content after one read of `r` bytes lands on a buffer
holding `buf` bytes: the buffer is reset to empty when the flush at
lines 104-121 fires (`buffer.tell() > 5 * 1024 * 1024`), and keeps the
appended bytes otherwise. -/
def bufAfter (t buf r : Nat) : Nat :=
  if t < buf + r then 0 else buf + r

/-- The chunk-accumulation loop of `upload_to_s3_sync` (lines 98-121)
restricted to its buffer arithmetic: given the sizes of the successive
reads, return the sizes of the parts flushed inside the loop together
with the final buffer content. -/
def accumRun (t : Nat) : List Nat → Nat → List Nat × Nat
  | [], buf => ([], buf)
  | r :: rs, buf =>
    let rest := accumRun t rs (bufAfter t buf r)
    if t < buf + r then ((buf + r) :: rest.1, rest.2) else rest

/-- Sizes of all parts uploaded for one segment: the in-loop flushes
followed by the final flush of a non-empty remainder (lines 123-137). -/
def chunkSizes (t : Nat) (reads : List Nat) : List Nat :=
  let p := accumRun t reads 0
  p.1 ++ (if 0 < p.2 then [p.2] else [])

/-- Successive buffer sizes observed right after each `buffer.write`
(line 102), i.e. at the point where the flush test of line 104 runs. -/
def bufStates (t : Nat) : List Nat → Nat → List Nat
  | [], _ => []
  | r :: rs, buf => (buf + r) :: bufStates t rs (bufAfter t buf r)

/-- Observable events of one recording session, in the order the code
performs them. -/
inductive Ev where
  | setOn
  | scheduleUpdate
  | createUpload (uid : Nat)
  | createErr
  | procStart
  | readChunk (n : Nat)
  | uploadPart (uid pn size : Nat)
  | uploadPartErr (uid pn : Nat)
  | complete (uid : Nat)
  | completeErr (uid : Nat)
  | abort (uid : Nat)
  | stopSession
  | terminate
  | wait
  | ret
  deriving DecidableEq

/-- The shared `_attr_is_on` flag: `isOn` is the value most recently
assigned by the session's own code, and `ticks` counts the reads of
the flag performed so far.  An external `stop_stream_to_s3` call (from
`async_turn_off`) is modelled by a cut-off `stopAt`: from the
`stopAt`-th read on, the flag reads as `false`. -/
structure SessSt where
  isOn : Bool
  ticks : Nat
  deriving DecidableEq

/-- Value obtained by reading `_attr_is_on` in state `s`, with an
external stop command arriving at flag-read `k` when `stopAt = some k`. -/
def effFlag (stopAt : Option Nat) (s : SessSt) : Bool :=
  s.isOn && (match stopAt with
    | none => true
    | some k => decide (s.ticks < k))

/-- Advance the flag-read counter by one. -/
def tick (s : SessSt) : SessSt :=
  { s with ticks := s.ticks + 1 }

/-- Outcome of one `process.stdout.read(1024 * 1024)` call: `bytes n`
returns `n` bytes (`bytes 0` is the empty read that ends the loop at
line 100), `rerr` raises `OSError`. -/
inductive ReadRes where
  | bytes (n : Nat)
  | rerr
  deriving DecidableEq

/-- Script describing the external world during one iteration of the
outer `while` of `upload_to_s3_sync`: whether
`create_multipart_upload` and `subprocess.Popen` succeed, the results
of the successive pipe reads, the part numbers at which `upload_part`
raises `ClientError`, and whether `complete_multipart_upload`
succeeds. -/
structure SegEnv where
  createOk : Bool
  launchOk : Bool
  reads : List ReadRes
  failParts : List Nat
  completeOk : Bool
  deriving DecidableEq

/-- Reason the inner read loop (lines 98-121) stopped. -/
inductive InnerExit where
  | stopped
  | ended
  | readError
  | storageError
  deriving DecidableEq

/-- Result of the inner read loop: emitted events, final buffer size,
next part number, flag state, and the exit reason. -/
structure InnerRes where
  trace : List Ev
  buf : Nat
  partNo : Nat
  st : SessSt
  exit : InnerExit
  deriving DecidableEq

/-- Exceptions that can escape `upload_to_s3_sync`: `clientError` for
a failing `create_multipart_upload` (raised before the `try` block),
`unboundLocal` for the unbound `process` variable hit by the `finally`
clause when `Popen` itself raised. -/
inductive Exn where
  | clientError
  | unboundLocal
  deriving DecidableEq

/-- Result of running a piece of session code: its event trace, the
final flag state, and the exception escaping it, if any. -/
structure RunRes where
  trace : List Ev
  st : SessSt
  exn : Option Exn
  deriving DecidableEq

/-- The inner `while self._attr_is_on` read loop of
`upload_to_s3_sync` (lines 98-121): check the flag, read from the
pipe, append to the buffer, and flush the buffer as an S3 part
whenever it strictly exceeds the 5 MiB threshold. -/
def readLoop (stopAt : Option Nat) (uid : Nat) (failParts : List Nat) :
    List ReadRes → Nat → Nat → SessSt → InnerRes
  | [], buf, pn, s =>
    if effFlag stopAt s = false then
      { trace := [], buf := buf, partNo := pn, st := tick s, exit := .stopped }
    else
      { trace := [], buf := buf, partNo := pn, st := tick s, exit := .ended }
  | .rerr :: _, buf, pn, s =>
    if effFlag stopAt s = false then
      { trace := [], buf := buf, partNo := pn, st := tick s, exit := .stopped }
    else
      { trace := [], buf := buf, partNo := pn, st := tick s, exit := .readError }
  | .bytes n :: rs, buf, pn, s =>
    if effFlag stopAt s = false then
      { trace := [], buf := buf, partNo := pn, st := tick s, exit := .stopped }
    else if n = 0 then
      { trace := [], buf := buf, partNo := pn, st := tick s, exit := .ended }
    else if threshold < buf + n then
      if pn ∈ failParts then
        { trace := [.readChunk n, .uploadPartErr uid pn], buf := buf + n, partNo := pn,
          st := tick s, exit := .storageError }
      else
        let r := readLoop stopAt uid failParts rs 0 (pn + 1) (tick s)
        { r with trace := .readChunk n :: .uploadPart uid pn (buf + n) :: r.trace }
    else
      let r := readLoop stopAt uid failParts rs (buf + n) pn (tick s)
      { r with trace := .readChunk n :: r.trace }

/-- `stop_stream_to_s3` (lines 180-187): if the flag reads true, set
it to false and push a state update, otherwise only log. -/
def stop_stream_to_s3 (stopAt : Option Nat) (s : SessSt) : List Ev × SessSt :=
  if effFlag stopAt s then
    ([.stopSession, .scheduleUpdate], { tick s with isOn := false })
  else
    ([], tick s)

/-- One iteration of the outer `while` of `upload_to_s3_sync` (lines
74-158): create the multipart upload, launch ffmpeg, run the read
loop, flush the remainder and complete the upload, with the except
clauses of lines 147-154 and the `finally` of lines 155-158.  A
failing `create_multipart_upload` raises `ClientError` outside the
`try`; a failing `Popen` raises `OSError`, is caught at line 152
(stopping the session), after which the `finally` clause hits the
unbound `process` variable. -/
def runSegment (stopAt : Option Nat) (env : SegEnv) (uid : Nat) (s : SessSt) : RunRes :=
  if env.createOk = false then
    { trace := [.createErr], st := s, exn := some .clientError }
  else if env.launchOk = false then
    let p := stop_stream_to_s3 stopAt s
    { trace := .createUpload uid :: p.1, st := p.2, exn := some .unboundLocal }
  else
    let r := readLoop stopAt uid env.failParts env.reads 0 1 s
    let pre := .createUpload uid :: .procStart :: r.trace
    match r.exit with
    | .readError =>
      let p := stop_stream_to_s3 stopAt r.st
      { trace := pre ++ p.1 ++ [.terminate, .wait], st := p.2, exn := none }
    | .storageError =>
      { trace := pre ++ [.abort uid, .terminate, .wait], st := r.st, exn := none }
    | .stopped | .ended =>
      if 0 < r.buf then
        if r.partNo ∈ env.failParts then
          { trace := pre ++ [.uploadPartErr uid r.partNo, .abort uid, .terminate, .wait],
            st := r.st, exn := none }
        else if env.completeOk then
          { trace := pre ++ [.uploadPart uid r.partNo r.buf, .complete uid,
              .terminate, .wait],
            st := r.st, exn := none }
        else
          { trace := pre ++ [.uploadPart uid r.partNo r.buf, .completeErr uid,
              .abort uid, .terminate, .wait],
            st := r.st, exn := none }
      else if env.completeOk then
        { trace := pre ++ [.complete uid, .terminate, .wait], st := r.st, exn := none }
      else
        { trace := pre ++ [.completeErr uid, .abort uid, .terminate, .wait],
          st := r.st, exn := none }

/-- The outer `while self._attr_is_on` loop of `upload_to_s3_sync`
(lines 73-158), one `SegEnv` per iteration; the script running out is
modelled as a normal return (enough fuel is supplied in every
statement below). -/
def upload_to_s3_sync (stopAt : Option Nat) : List SegEnv → Nat → SessSt → RunRes
  | [], _, s => { trace := [], st := tick s, exn := none }
  | env :: rest, uid, s =>
    if effFlag stopAt s = false then
      { trace := [], st := tick s, exn := none }
    else
      let r := runSegment stopAt env uid (tick s)
      match r.exn with
      | some e => { trace := r.trace, st := r.st, exn := some e }
      | none =>
        let r2 := upload_to_s3_sync stopAt rest (uid + 1) r.st
        { trace := r.trace ++ r2.trace, st := r2.st, exn := r2.exn }

/-- `start_stream_to_s3` (lines 160-178): if the flag reads false, set
it, push a state update, await the executor job running
`upload_to_s3_sync` to completion, catch the boto exceptions, and in
all cases run the `finally` clause calling `stop_stream_to_s3` before
returning.  The `ret` event marks the coroutine returning to its
caller; an `unboundLocal` escape is caught by none of the except
clauses, so no `ret` is emitted for it. -/
def start_stream_to_s3 (stopAt : Option Nat) (envs : List SegEnv) (s : SessSt) : RunRes :=
  if effFlag stopAt s then
    { trace := [], st := tick s, exn := none }
  else
    let r := upload_to_s3_sync stopAt envs 0 { tick s with isOn := true }
    match r.exn with
    | some .unboundLocal =>
      let p := stop_stream_to_s3 stopAt r.st
      { trace := .setOn :: .scheduleUpdate :: (r.trace ++ p.1), st := p.2,
        exn := some .unboundLocal }
    | _ =>
      let p := stop_stream_to_s3 stopAt r.st
      { trace := .setOn :: .scheduleUpdate :: (r.trace ++ p.1 ++ [.ret]), st := p.2,
        exn := none }

/-- `async_turn_on` (lines 55-59): start the recording only when the
flag reads false. -/
def async_turn_on (stopAt : Option Nat) (envs : List SegEnv) (s : SessSt) : RunRes :=
  if effFlag stopAt s then
    { trace := [], st := tick s, exn := none }
  else
    start_stream_to_s3 stopAt envs (tick s)

/-- Index of the first occurrence of an event in a trace (length of
the trace when absent). -/
def idxOf (e : Ev) : List Ev → Nat
  | [] => 0
  | x :: xs => if x = e then 0 else idxOf e xs + 1

/-- Number of occurrences of an event in a trace. -/
def countEv (e : Ev) : List Ev → Nat
  | [] => 0
  | x :: xs => (if x = e then 1 else 0) + countEv e xs

/-- No upload-part call (successful or failing) on upload id `u`
occurs in the trace. -/
def noPartsOf (u : Nat) (l : List Ev) : Prop :=
  ∀ pn sz, Ev.uploadPart u pn sz ∉ l ∧ Ev.uploadPartErr u pn ∉ l

/-- Classification of the events the inner read loop can emit. -/
def innerEv (uid : Nat) (e : Ev) : Prop :=
  (∃ n, e = Ev.readChunk n) ∨ (∃ pn sz, e = Ev.uploadPart uid pn sz)
    ∨ (∃ pn, e = Ev.uploadPartErr uid pn)

/-- Fixture: a segment whose external calls all succeed and whose
stream produces no bytes. -/
def okEnv : SegEnv :=
  { createOk := true, launchOk := true, reads := [], failParts := [], completeOk := true }

/-- Fixture: a segment whose first part upload fails after six full
reads cross the 5 MiB threshold. -/
def failEnv : SegEnv :=
  { createOk := true, launchOk := true,
    reads := List.replicate 6 (ReadRes.bytes readUnit), failParts := [1],
    completeOk := true }

/-- Fixture: a segment with three full reads pending, all storage
calls succeeding. -/
def stopEnv : SegEnv :=
  { createOk := true, launchOk := true,
    reads := List.replicate 3 (ReadRes.bytes readUnit), failParts := [],
    completeOk := true }

/-- Fixture: the session state before any start command. -/
def idleSt : SessSt := { isOn := false, ticks := 0 }

/-- Fixture: the session state of a running recording. -/
def activeSt : SessSt := { isOn := true, ticks := 0 }

/-- A storage call of the segment failed, in any of the three ways the
code can hit `ClientError` inside the `try` block: `upload_part`
raised during the read loop (lines 106-112, exit `storageError`), or
the loop ended and the final-flush `upload_part` raised (lines
125-131, the pending part number is scripted to fail), or
`complete_multipart_upload` raised (lines 139-144). -/
def storageFailureAt (rl : InnerRes) (env : SegEnv) : Prop :=
  rl.exit = InnerExit.storageError
  ∨ ((rl.exit = InnerExit.stopped ∨ rl.exit = InnerExit.ended)
      ∧ (0 < rl.buf ∧ rl.partNo ∈ env.failParts ∨ env.completeOk = false))

/-- Fixture: a segment whose stream ends immediately and whose
`complete_multipart_upload` call fails. -/
def finEnv : SegEnv :=
  { createOk := true, launchOk := true, reads := [], failParts := [],
    completeOk := false }

/-- Accepted streaming-transport scheme prefixes checked by
`validate_input` (config_flow.py line 95). -/
def schemeRtsp : String := "rtsp://"

/-- The second accepted scheme of `validate_input`. -/
def schemeRtmp : String := "rtmp://"

/-- Python's `str.startswith`: the characters of `pre` form a prefix
of the characters of `url`. -/
def url_startswith (url pre : String) : Bool :=
  pre.data.isPrefixOf url.data

/-- Outcome of stream-URL validation in `validate_input`. -/
inductive ValidateRes where
  | ok
  | invalidStreamURL
  deriving DecidableEq

/-- The stream-validation loop of `validate_input` (config_flow.py
lines 93-100): raise `InvalidStreamURL` at the first URL that starts
with neither accepted scheme, succeed otherwise. -/
def validate_streams : List String → ValidateRes
  | [] => .ok
  | url :: rest =>
    if !url_startswith url schemeRtsp && !url_startswith url schemeRtmp then
      .invalidStreamURL
    else validate_streams rest

/-- `async_step_user` (config_flow.py lines 109-128) restricted to
stream validation: a config entry is created only when validation
succeeds; on `InvalidStreamURL` the form is shown again with an error
and no entry — hence no session or entity — is created. -/
def async_step_user (urls : List String) : Option (List String) :=
  match validate_streams urls with
  | .ok => some urls
  | .invalidStreamURL => none

/-- Fixture: a URL with a scheme that is neither rtsp nor rtmp. -/
def badUrl : String := "http://cam.local/stream"

lemma accumRun_sum (t : Nat) :
    ∀ (reads : List Nat) (buf : Nat),
      ((accumRun t reads buf).1).sum + (accumRun t reads buf).2 = buf + reads.sum := by
  intro reads
  induction reads with
  | nil => intro buf; simp [accumRun]
  | cons r rs ih =>
    intro buf
    by_cases h : t < buf + r
    · have := ih (bufAfter t buf r)
      simp only [accumRun, bufAfter, if_pos h] at this ⊢
      simp only [List.sum_cons]
      omega
    · have := ih (bufAfter t buf r)
      simp only [accumRun, bufAfter, if_neg h] at this ⊢
      simp only [List.sum_cons]
      omega

lemma accumRun_chunks_gt (t : Nat) :
    ∀ (reads : List Nat) (buf : Nat), ∀ c ∈ (accumRun t reads buf).1, t < c := by
  intro reads
  induction reads with
  | nil => intro buf c hc; simp [accumRun] at hc
  | cons r rs ih =>
    intro buf c hc
    by_cases h : t < buf + r
    · simp only [accumRun, if_pos h, List.mem_cons] at hc
      rcases hc with rfl | hc
      · exact h
      · exact ih _ c hc
    · simp only [accumRun, if_neg h] at hc
      exact ih _ c hc

lemma chunkSizes_pos (t : Nat) (reads : List Nat) :
    ∀ c ∈ chunkSizes t reads, 0 < c := by
  intro c hc
  simp only [chunkSizes, List.mem_append] at hc
  rcases hc with hc | hc
  · exact Nat.lt_of_le_of_lt (Nat.zero_le t) (accumRun_chunks_gt t reads 0 c hc)
  · by_cases h : 0 < (accumRun t reads 0).2
    · simp only [if_pos h, List.mem_singleton] at hc
      exact hc ▸ h
    · simp [if_neg h] at hc

lemma sum_lower (l : List Nat) (n : Nat) (h : ∀ c ∈ l, n ≤ c) :
    l.length * n ≤ l.sum := by
  induction l with
  | nil => simp
  | cons a l ih =>
    have ha := h a (List.mem_cons_self a l)
    have := ih fun c hc => h c (List.mem_cons_of_mem a hc)
    simp only [List.length_cons, List.sum_cons, Nat.succ_mul]
    omega

lemma chunkSizes_sum (t : Nat) (reads : List Nat) :
    (chunkSizes t reads).sum = reads.sum := by
  have h := accumRun_sum t reads 0
  simp only [chunkSizes]
  by_cases hf : 0 < (accumRun t reads 0).2
  · simp only [if_pos hf, List.sum_append, List.sum_cons, List.sum_nil]
    omega
  · simp only [if_neg hf, List.sum_append, List.sum_nil]
    omega

lemma chunkSizes_dropLast_gt (t : Nat) (reads : List Nat) :
    ∀ c ∈ (chunkSizes t reads).dropLast, t < c := by
  intro c hc
  simp only [chunkSizes] at hc
  by_cases hf : 0 < (accumRun t reads 0).2
  · rw [if_pos hf, List.dropLast_concat] at hc
    exact accumRun_chunks_gt t reads 0 c hc
  · rw [if_neg hf, List.append_nil] at hc
    exact accumRun_chunks_gt t reads 0 c (List.dropLast_subset _ hc)

lemma chunkSizes_length_le (t : Nat) (reads : List Nat) (ht : 0 < t) :
    (chunkSizes t reads).length ≤ (reads.sum + t - 1) / t := by
  by_cases hne : chunkSizes t reads = []
  · rw [hne]; exact Nat.zero_le _
  · have hsplit := List.dropLast_append_getLast hne
    have hsum : (chunkSizes t reads).dropLast.sum + (chunkSizes t reads).getLast hne
        = reads.sum := by
      have h2 : ((chunkSizes t reads).dropLast ++ [(chunkSizes t reads).getLast hne]).sum
          = (chunkSizes t reads).sum := by rw [hsplit]
      simpa [List.sum_append] using h2.trans (chunkSizes_sum t reads)
    have hlow : (chunkSizes t reads).dropLast.length * (t + 1)
        ≤ (chunkSizes t reads).dropLast.sum :=
      sum_lower _ _ fun c hc => chunkSizes_dropLast_gt t reads c hc
    rw [List.length_dropLast] at hlow
    have hlast : 1 ≤ (chunkSizes t reads).getLast hne :=
      chunkSizes_pos t reads _ (List.getLast_mem hne)
    have hpos : 1 ≤ (chunkSizes t reads).length :=
      List.length_pos.mpr hne
    rw [Nat.le_div_iff_mul_le ht]
    obtain ⟨m, hm⟩ : ∃ m, (chunkSizes t reads).length = m + 1 :=
      ⟨(chunkSizes t reads).length - 1, by omega⟩
    rw [hm] at hlow ⊢
    have e1 : (m + 1 - 1) * (t + 1) = m * t + m := by
      simp only [Nat.add_sub_cancel]; ring
    rw [e1] at hlow
    have e2 : (m + 1) * t = m * t + t := by ring
    rw [e2]
    omega

/-- Claim C4 as stated is refuted by twelve 1-byte reads against a
5-byte threshold: the loop flushes only once the buffer strictly
exceeds the threshold, so the run yields two chunks of six bytes while
the claim predicts three chunks. -/
theorem chunk_count_counterexample :
    (List.replicate 12 1).sum = 12
    ∧ (chunkSizes 5 (List.replicate 12 1)).length = 2
    ∧ (12 + 5 - 1) / 5 = 3
    ∧ (chunkSizes 5 (List.replicate 12 1)).length ≠ (12 + 5 - 1) / 5 := by
  refine ⟨by decide, by decide, by decide, by decide⟩

/-- Claim C4, amended: for every threshold `T > 0` and every sequence
of reads totalling `N` bytes, the accumulator followed by a final
flush emits chunks whose sizes sum exactly to `N`, every chunk except
possibly the last is strictly larger than `T` (hence at least `T`),
and the number of chunks is at most `⌈N / T⌉` (it can be smaller,
because a flush fires only once the buffer strictly exceeds `T`). -/
theorem chunk_accumulator_bounds (t : Nat) (reads : List Nat) (ht : 0 < t) :
    (chunkSizes t reads).sum = reads.sum
    ∧ (∀ c ∈ (chunkSizes t reads).dropLast, t < c)
    ∧ (chunkSizes t reads).length ≤ (reads.sum + t - 1) / t :=
  ⟨chunkSizes_sum t reads, chunkSizes_dropLast_gt t reads,
    chunkSizes_length_le t reads ht⟩

/-- Witness for the amended C4 at threshold 5 and reads `[3, 3, 1]`. -/
theorem chunk_accumulator_bounds_witness :
    0 < 5
    ∧ ((chunkSizes 5 [3, 3, 1]).sum = ([3, 3, 1] : List Nat).sum
      ∧ (∀ c ∈ (chunkSizes 5 [3, 3, 1]).dropLast, 5 < c)
      ∧ (chunkSizes 5 [3, 3, 1]).length ≤ (([3, 3, 1] : List Nat).sum + 5 - 1) / 5) :=
  ⟨by decide, chunk_accumulator_bounds 5 [3, 3, 1] (by decide)⟩

lemma bufStates_bound (t u : Nat) :
    ∀ (reads : List Nat) (buf : Nat), (∀ r ∈ reads, r ≤ u) → buf ≤ t →
      ∀ b ∈ bufStates t reads buf, b ≤ t + u := by
  intro reads
  induction reads with
  | nil => intro buf _ _ b hb; simp [bufStates] at hb
  | cons r rs ih =>
    intro buf hr hbuf b hb
    simp only [bufStates, List.mem_cons] at hb
    have hru := hr r (List.mem_cons_self r rs)
    rcases hb with rfl | hb
    · omega
    · refine ih _ (fun x hx => hr x (List.mem_cons_of_mem r hx)) ?_ b hb
      simp only [bufAfter]
      split <;> omega

/-- Claim C9: with the 5 MiB threshold and 1 MiB reads of
`upload_to_s3_sync`, the buffer observed at each flush test never
exceeds the threshold by more than one read unit, and whenever the
flush fires the buffer is reset to empty. -/
theorem buffer_invariant (reads : List Nat) (h : ∀ r ∈ reads, r ≤ readUnit) :
    (∀ b ∈ bufStates threshold reads 0, b ≤ threshold + readUnit)
    ∧ (∀ buf r, threshold < buf + r → bufAfter threshold buf r = 0) :=
  ⟨bufStates_bound threshold readUnit reads 0 h (Nat.zero_le threshold),
    fun buf r hlt => by simp [bufAfter, if_pos hlt]⟩

/-- Witness for C9 at seven full-size reads. -/
theorem buffer_invariant_witness :
    (∀ r ∈ List.replicate 7 readUnit, r ≤ readUnit)
    ∧ ((∀ b ∈ bufStates threshold (List.replicate 7 readUnit) 0,
          b ≤ threshold + readUnit)
      ∧ (∀ buf r, threshold < buf + r → bufAfter threshold buf r = 0)) :=
  ⟨fun r hr => Nat.le_of_eq (List.eq_of_mem_replicate hr),
    buffer_invariant (List.replicate 7 readUnit)
      fun r hr => Nat.le_of_eq (List.eq_of_mem_replicate hr)⟩

lemma effFlag_tick_false (stopAt : Option Nat) (s : SessSt)
    (h : effFlag stopAt s = false) : effFlag stopAt (tick s) = false := by
  cases stopAt with
  | none => simpa [effFlag, tick] using h
  | some k =>
    simp only [effFlag, tick, Bool.and_eq_false_iff, decide_eq_false_iff_not] at h ⊢
    rcases h with h | h
    · exact Or.inl h
    · exact Or.inr (by omega)

lemma readLoop_isOn (stopAt : Option Nat) (uid : Nat) (fp : List Nat) :
    ∀ (reads : List ReadRes) (buf pn : Nat) (s : SessSt),
      (readLoop stopAt uid fp reads buf pn s).st.isOn = s.isOn := by
  intro reads
  induction reads with
  | nil =>
    intro buf pn s
    simp only [readLoop]
    split <;> rfl
  | cons r rs ih =>
    intro buf pn s
    cases r with
    | rerr =>
      simp only [readLoop]
      split <;> rfl
    | bytes n =>
      simp only [readLoop]
      split
      · rfl
      · split
        · rfl
        · split
          · split
            · rfl
            · exact ih 0 (pn + 1) (tick s)
          · exact ih (buf + n) pn (tick s)

lemma readLoop_stopped_eff (stopAt : Option Nat) (uid : Nat) (fp : List Nat) :
    ∀ (reads : List ReadRes) (buf pn : Nat) (s : SessSt),
      (readLoop stopAt uid fp reads buf pn s).exit = .stopped →
      effFlag stopAt (readLoop stopAt uid fp reads buf pn s).st = false := by
  intro reads
  induction reads with
  | nil =>
    intro buf pn s h
    by_cases heff : effFlag stopAt s = false
    · simp only [readLoop, if_pos heff]
      exact effFlag_tick_false stopAt s heff
    · simp only [readLoop, if_neg heff] at h
      simp at h
  | cons r rs ih =>
    intro buf pn s h
    cases r with
    | rerr =>
      by_cases heff : effFlag stopAt s = false
      · simp only [readLoop, if_pos heff]
        exact effFlag_tick_false stopAt s heff
      · simp only [readLoop, if_neg heff] at h
        simp at h
    | bytes n =>
      by_cases heff : effFlag stopAt s = false
      · simp only [readLoop, if_pos heff]
        exact effFlag_tick_false stopAt s heff
      · simp only [readLoop, if_neg heff] at h ⊢
        by_cases hn : n = 0
        · simp only [if_pos hn] at h
          simp at h
        · simp only [if_neg hn] at h ⊢
          by_cases hth : threshold < buf + n
          · simp only [if_pos hth] at h ⊢
            by_cases hfp : pn ∈ fp
            · simp only [if_pos hfp] at h
              simp at h
            · simp only [if_neg hfp] at h ⊢
              exact ih 0 (pn + 1) (tick s) h
          · simp only [if_neg hth] at h ⊢
            exact ih (buf + n) pn (tick s) h

lemma readLoop_trace_events (stopAt : Option Nat) (uid : Nat) (fp : List Nat) :
    ∀ (reads : List ReadRes) (buf pn : Nat) (s : SessSt),
      ∀ e ∈ (readLoop stopAt uid fp reads buf pn s).trace, innerEv uid e := by
  intro reads
  induction reads with
  | nil =>
    intro buf pn s e he
    simp only [readLoop] at he
    split at he <;> simp at he
  | cons r rs ih =>
    intro buf pn s e he
    cases r with
    | rerr =>
      simp only [readLoop] at he
      split at he <;> simp at he
    | bytes n =>
      simp only [readLoop] at he
      split at he
      · simp at he
      · split at he
        · simp at he
        · split at he
          · split at he
            · simp only [List.mem_cons, List.mem_singleton] at he
              rcases he with rfl | rfl | h
              · exact Or.inl ⟨n, rfl⟩
              · exact Or.inr (Or.inr ⟨pn, rfl⟩)
              · exact absurd h (List.not_mem_nil e)
            · simp only [List.mem_cons] at he
              rcases he with rfl | rfl | h
              · exact Or.inl ⟨n, rfl⟩
              · exact Or.inr (Or.inl ⟨pn, buf + n, rfl⟩)
              · exact ih 0 (pn + 1) (tick s) e h
          · simp only [List.mem_cons] at he
            rcases he with rfl | h
            · exact Or.inl ⟨n, rfl⟩
            · exact ih (buf + n) pn (tick s) e h

lemma stop_events (stopAt : Option Nat) (s : SessSt) :
    ∀ e ∈ (stop_stream_to_s3 stopAt s).1, e = Ev.stopSession ∨ e = Ev.scheduleUpdate := by
  intro e he
  simp only [stop_stream_to_s3] at he
  split at he <;> simp at he
  · rcases he with rfl | rfl
    · exact Or.inl rfl
    · exact Or.inr rfl

lemma upload_off (stopAt : Option Nat) (envs : List SegEnv) (uid : Nat) (s : SessSt)
    (h : effFlag stopAt s = false) :
    upload_to_s3_sync stopAt envs uid s = { trace := [], st := tick s, exn := none } := by
  cases envs <;> simp [upload_to_s3_sync, h]

lemma runSegment_storageError (stopAt : Option Nat) (env : SegEnv) (uid : Nat) (s : SessSt)
    (hc : env.createOk = true) (hl : env.launchOk = true)
    (hex : (readLoop stopAt uid env.failParts env.reads 0 1 s).exit = .storageError) :
    runSegment stopAt env uid s
      = { trace := Ev.createUpload uid :: Ev.procStart ::
            ((readLoop stopAt uid env.failParts env.reads 0 1 s).trace
              ++ [Ev.abort uid, Ev.terminate, Ev.wait]),
          st := (readLoop stopAt uid env.failParts env.reads 0 1 s).st, exn := none } := by
  have h1 : (env.createOk = false) = False := by simp [hc]
  have h2 : (env.launchOk = false) = False := by simp [hl]
  simp only [runSegment, h1, h2, if_false]
  rw [hex]
  rfl

lemma runSegment_finalize (stopAt : Option Nat) (env : SegEnv) (uid : Nat) (s : SessSt)
    (hc : env.createOk = true) (hl : env.launchOk = true)
    (hex : (readLoop stopAt uid env.failParts env.reads 0 1 s).exit = .stopped
      ∨ (readLoop stopAt uid env.failParts env.reads 0 1 s).exit = .ended)
    (hfp : (readLoop stopAt uid env.failParts env.reads 0 1 s).partNo ∉ env.failParts)
    (hok : env.completeOk = true) :
    runSegment stopAt env uid s
      = { trace := Ev.createUpload uid :: Ev.procStart ::
            ((readLoop stopAt uid env.failParts env.reads 0 1 s).trace
              ++ (if 0 < (readLoop stopAt uid env.failParts env.reads 0 1 s).buf
                  then [Ev.uploadPart uid
                          (readLoop stopAt uid env.failParts env.reads 0 1 s).partNo
                          (readLoop stopAt uid env.failParts env.reads 0 1 s).buf]
                  else [])
              ++ [Ev.complete uid, Ev.terminate, Ev.wait]),
          st := (readLoop stopAt uid env.failParts env.reads 0 1 s).st, exn := none } := by
  have h1 : (env.createOk = false) = False := by simp [hc]
  have h2 : (env.launchOk = false) = False := by simp [hl]
  simp only [runSegment, h1, h2, if_false]
  rcases hex with hex | hex <;> rw [hex] <;>
    by_cases hbuf : 0 < (readLoop stopAt uid env.failParts env.reads 0 1 s).buf <;>
    simp [hbuf, hfp, hok]

lemma runSegment_create_mem (stopAt : Option Nat) (env : SegEnv) (uid : Nat) (s : SessSt)
    (hc : env.createOk = true) :
    Ev.createUpload uid ∈ (runSegment stopAt env uid s).trace := by
  have h1 : (env.createOk = false) = False := by simp [hc]
  simp only [runSegment, h1, if_false]
  by_cases h2 : env.launchOk = false
  · simp [h2]
  · simp only [if_neg h2]
    split <;> (repeat' split) <;> simp

/-- Claim C8: a further `async_turn_on` on a session whose flag is
already on is a no-op returning success: it emits no event at all (so
no second recording task, capture process, or upload transaction is
created) and leaves the state unchanged apart from the flag read. -/
theorem start_on_active_is_noop (envs : List SegEnv) (s : SessSt) (h : s.isOn = true) :
    async_turn_on none envs s = { trace := [], st := tick s, exn := none } := by
  have heff : effFlag none s = true := by simp [effFlag, h]
  simp [async_turn_on, heff]

/-- Witness for C8 at a running session. -/
theorem start_on_active_is_noop_witness :
    activeSt.isOn = true
    ∧ async_turn_on none [okEnv] activeSt
        = { trace := [], st := tick activeSt, exn := none } :=
  ⟨rfl, start_on_active_is_noop [okEnv] activeSt rfl⟩

/-- Claim C7: in every segment whose `create_multipart_upload` and
`Popen` calls succeed, the capture process is launched and — on every
exit path of the segment (end of stream, read error, storage error, or
external stop) — the `finally` clause runs, so the segment trace ends
with `terminate` immediately followed by `wait`: the ffmpeg process is
always reaped, never leaked. -/
theorem capture_always_reaped (stopAt : Option Nat) (env : SegEnv) (uid : Nat) (s : SessSt)
    (hc : env.createOk = true) (hl : env.launchOk = true) :
    ∃ l, (runSegment stopAt env uid s).trace
      = Ev.createUpload uid :: Ev.procStart :: (l ++ [Ev.terminate, Ev.wait]) := by
  have h1 : (env.createOk = false) = False := by simp [hc]
  have h2 : (env.launchOk = false) = False := by simp [hl]
  simp only [runSegment, h1, h2, if_false]
  generalize readLoop stopAt uid env.failParts env.reads 0 1 s = r
  split <;> (repeat' split) <;>
    first
      | (refine ⟨r.trace ++ (stop_stream_to_s3 stopAt r.st).1, ?_⟩; simp; done)
      | (refine ⟨r.trace ++ [Ev.abort uid], ?_⟩; simp; done)
      | (refine ⟨r.trace ++ [Ev.uploadPartErr uid r.partNo, Ev.abort uid], ?_⟩; simp; done)
      | (refine ⟨r.trace ++ [Ev.uploadPart uid r.partNo r.buf, Ev.complete uid], ?_⟩;
          simp; done)
      | (refine ⟨r.trace ++ [Ev.uploadPart uid r.partNo r.buf, Ev.completeErr uid,
          Ev.abort uid], ?_⟩; simp; done)
      | (refine ⟨r.trace ++ [Ev.complete uid], ?_⟩; simp; done)
      | (refine ⟨r.trace ++ [Ev.completeErr uid, Ev.abort uid], ?_⟩; simp; done)

/-- Witness for C7 on a read-error segment. -/
theorem capture_always_reaped_witness :
    failEnv.createOk = true
    ∧ failEnv.launchOk = true
    ∧ ∃ l, (runSegment none failEnv 0 activeSt).trace
        = Ev.createUpload 0 :: Ev.procStart :: (l ++ [Ev.terminate, Ev.wait]) :=
  ⟨rfl, rfl, capture_always_reaped none failEnv 0 activeSt rfl rfl⟩

/-- Claim C3 is refuted on a concrete run: the `setOn` event (the
assignment `self._attr_is_on = True` at line 163) occurs strictly
before `procStart` (the `subprocess.Popen` launch at line 89), so the
flag is reported on before the capture process has launched. -/
theorem flag_on_before_launch_counterexample :
    Ev.setOn ∈ (async_turn_on none [okEnv] idleSt).trace
    ∧ Ev.procStart ∈ (async_turn_on none [okEnv] idleSt).trace
    ∧ idxOf Ev.setOn (async_turn_on none [okEnv] idleSt).trace
        < idxOf Ev.procStart (async_turn_on none [okEnv] idleSt).trace := by
  decide

/-- Claim C3, amended: the on flag is aspirational, not confirmed:
whenever `start_stream_to_s3` proceeds (flag read false), the first
two events of its trace are `setOn` and the state-update push, i.e.
the flag is set before the capture subprocess can possibly start. -/
theorem flag_set_at_start_entry (stopAt : Option Nat) (envs : List SegEnv) (s : SessSt)
    (hoff : effFlag stopAt s = false) :
    ∃ rest, (start_stream_to_s3 stopAt envs s).trace
      = Ev.setOn :: Ev.scheduleUpdate :: rest := by
  have h1 : (effFlag stopAt s = true) = False := by simp [hoff]
  simp only [start_stream_to_s3, h1, if_false]
  split
  · exact ⟨_, rfl⟩
  · exact ⟨_, rfl⟩

/-- Witness for the amended C3 from the idle state. -/
theorem flag_set_at_start_entry_witness :
    effFlag none idleSt = false
    ∧ ∃ rest, (start_stream_to_s3 none [okEnv] idleSt).trace
        = Ev.setOn :: Ev.scheduleUpdate :: rest :=
  ⟨rfl, flag_set_at_start_entry none [okEnv] idleSt rfl⟩

/-- Claim C2 is refuted on a concrete run: the `ret` event (the return
of `start_stream_to_s3` to its caller) occurs after the whole
recording — here after `complete` — because the coroutine awaits the
executor job to completion; the start call does not return once the
task is launched. -/
theorem start_not_fire_and_forget_counterexample :
    Ev.complete 0 ∈ (start_stream_to_s3 none [okEnv] idleSt).trace
    ∧ Ev.ret ∈ (start_stream_to_s3 none [okEnv] idleSt).trace
    ∧ idxOf (Ev.complete 0) (start_stream_to_s3 none [okEnv] idleSt).trace
        < idxOf Ev.ret (start_stream_to_s3 none [okEnv] idleSt).trace := by
  decide

/-- Claim C2, amended: `start_stream_to_s3` returns to its caller only
after the recording loop has finished: whenever it proceeds and no
uncaught exception escapes, its trace is the flag assignment, the
entire `upload_to_s3_sync` trace, the `finally` stop events, and only
then the return to the caller. -/
theorem start_returns_after_loop (stopAt : Option Nat) (envs : List SegEnv) (s : SessSt)
    (hoff : effFlag stopAt s = false)
    (hx : (upload_to_s3_sync stopAt envs 0 { tick s with isOn := true }).exn
      ≠ some Exn.unboundLocal) :
    (start_stream_to_s3 stopAt envs s).trace
      = Ev.setOn :: Ev.scheduleUpdate ::
          ((upload_to_s3_sync stopAt envs 0 { tick s with isOn := true }).trace
            ++ (stop_stream_to_s3 stopAt
                  (upload_to_s3_sync stopAt envs 0 { tick s with isOn := true }).st).1
            ++ [Ev.ret]) := by
  have h1 : (effFlag stopAt s = true) = False := by simp [hoff]
  simp only [start_stream_to_s3, h1, if_false]

/-- Witness for the amended C2 from the idle state. -/
theorem start_returns_after_loop_witness :
    effFlag none idleSt = false
    ∧ (upload_to_s3_sync none [okEnv] 0 { tick idleSt with isOn := true }).exn
        ≠ some Exn.unboundLocal
    ∧ (start_stream_to_s3 none [okEnv] idleSt).trace
        = Ev.setOn :: Ev.scheduleUpdate ::
            ((upload_to_s3_sync none [okEnv] 0 { tick idleSt with isOn := true }).trace
              ++ (stop_stream_to_s3 none
                    (upload_to_s3_sync none [okEnv] 0
                      { tick idleSt with isOn := true }).st).1
              ++ [Ev.ret]) :=
  ⟨rfl, by decide, start_returns_after_loop none [okEnv] idleSt rfl (by decide)⟩

lemma upload_create_mem (stopAt : Option Nat) (env : SegEnv) (rest : List SegEnv)
    (uid : Nat) (s : SessSt) (heff : effFlag stopAt s = true) (hc : env.createOk = true) :
    Ev.createUpload uid ∈ (upload_to_s3_sync stopAt (env :: rest) uid s).trace := by
  have h1 : (effFlag stopAt s = false) = False := by simp [heff]
  simp only [upload_to_s3_sync, h1, if_false]
  have hmem := runSegment_create_mem stopAt env uid (tick s) hc
  split
  · exact hmem
  · exact List.mem_append_left _ hmem

/-- Claim C1 is refuted on a concrete run: the first segment suffers a
part-upload failure and is aborted, yet the session does not return to
Idle — the outer loop immediately opens a second upload transaction
(`createUpload 1`) with no external start in between. -/
theorem storage_error_restarts_counterexample :
    Ev.abort 0 ∈ (start_stream_to_s3 none [failEnv, okEnv] idleSt).trace
    ∧ Ev.createUpload 1 ∈ (start_stream_to_s3 none [failEnv, okEnv] idleSt).trace
    ∧ idxOf (Ev.abort 0) (start_stream_to_s3 none [failEnv, okEnv] idleSt).trace
        < idxOf (Ev.createUpload 1) (start_stream_to_s3 none [failEnv, okEnv] idleSt).trace := by
  decide

/-- Claim C6: an external stop observed mid-segment makes the read
loop exit at its next flag check; the segment then flushes any
buffered remainder as a final part, calls
`complete_multipart_upload` (finalize — never abort), terminates and
reaps the capture process, and the session ends up Idle (the flag
reads false and the outer loop emits nothing further) — in exactly
that order, provided the storage calls of the stop path succeed. -/
theorem stop_flushes_finalizes_terminates (stopAt : Option Nat) (env : SegEnv)
    (rest : List SegEnv) (uid : Nat) (s : SessSt)
    (hon : effFlag stopAt s = true)
    (hc : env.createOk = true) (hl : env.launchOk = true)
    (hstop : (readLoop stopAt uid env.failParts env.reads 0 1 (tick s)).exit = .stopped)
    (hfp : (readLoop stopAt uid env.failParts env.reads 0 1 (tick s)).partNo
      ∉ env.failParts)
    (hok : env.completeOk = true) :
    (upload_to_s3_sync stopAt (env :: rest) uid s).trace
      = Ev.createUpload uid :: Ev.procStart ::
          ((readLoop stopAt uid env.failParts env.reads 0 1 (tick s)).trace
            ++ (if 0 < (readLoop stopAt uid env.failParts env.reads 0 1 (tick s)).buf
                then [Ev.uploadPart uid
                        (readLoop stopAt uid env.failParts env.reads 0 1 (tick s)).partNo
                        (readLoop stopAt uid env.failParts env.reads 0 1 (tick s)).buf]
                else [])
            ++ [Ev.complete uid, Ev.terminate, Ev.wait])
    ∧ Ev.abort uid ∉ (upload_to_s3_sync stopAt (env :: rest) uid s).trace
    ∧ effFlag stopAt (upload_to_s3_sync stopAt (env :: rest) uid s).st = false := by
  have h1 : (effFlag stopAt s = false) = False := by simp [hon]
  have hseg := runSegment_finalize stopAt env uid (tick s) hc hl (Or.inl hstop) hfp hok
  have hoff2 := readLoop_stopped_eff stopAt uid env.failParts env.reads 0 1 (tick s) hstop
  have hrest := upload_off stopAt rest (uid + 1) _ hoff2
  have hnia : Ev.abort uid
      ∉ (readLoop stopAt uid env.failParts env.reads 0 1 (tick s)).trace := by
    intro hmem
    rcases readLoop_trace_events stopAt uid env.failParts env.reads 0 1 (tick s) _ hmem
      with ⟨n, hn⟩ | ⟨pn, sz, hn⟩ | ⟨pn, hn⟩ <;> exact Ev.noConfusion hn
  refine ⟨?_, ?_, ?_⟩
  · simp only [upload_to_s3_sync, h1, if_false, hseg, hrest]
    simp
  · simp only [upload_to_s3_sync, h1, if_false, hseg, hrest]
    intro habs
    simp only [List.append_nil, List.mem_cons, List.mem_append] at habs
    rcases habs with h | h | h
    · exact Ev.noConfusion h
    · exact Ev.noConfusion h
    · rcases h with (h | h) | h
      · exact hnia h
      · revert h
        split <;> simp
      · simp at h
  · simp only [upload_to_s3_sync, h1, if_false, hseg, hrest]
    exact effFlag_tick_false _ _ hoff2

/-- Witness for C6: the stop command arrives at the third flag read,
mid-segment, with two reads already buffered. -/
theorem stop_flushes_finalizes_terminates_witness :
    effFlag (some 3) activeSt = true
    ∧ (readLoop (some 3) 0 stopEnv.failParts stopEnv.reads 0 1 (tick activeSt)).exit
        = InnerExit.stopped
    ∧ (readLoop (some 3) 0 stopEnv.failParts stopEnv.reads 0 1 (tick activeSt)).partNo
        ∉ stopEnv.failParts
    ∧ ((upload_to_s3_sync (some 3) [stopEnv] 0 activeSt).trace
        = Ev.createUpload 0 :: Ev.procStart ::
            ((readLoop (some 3) 0 stopEnv.failParts stopEnv.reads 0 1 (tick activeSt)).trace
              ++ (if 0 < (readLoop (some 3) 0 stopEnv.failParts stopEnv.reads 0 1
                      (tick activeSt)).buf
                  then [Ev.uploadPart 0
                          (readLoop (some 3) 0 stopEnv.failParts stopEnv.reads 0 1
                            (tick activeSt)).partNo
                          (readLoop (some 3) 0 stopEnv.failParts stopEnv.reads 0 1
                            (tick activeSt)).buf]
                  else [])
              ++ [Ev.complete 0, Ev.terminate, Ev.wait])
      ∧ Ev.abort 0 ∉ (upload_to_s3_sync (some 3) [stopEnv] 0 activeSt).trace
      ∧ effFlag (some 3) (upload_to_s3_sync (some 3) [stopEnv] 0 activeSt).st = false) :=
  ⟨by decide, by decide, by decide,
    stop_flushes_finalizes_terminates (some 3) stopEnv [] 0 activeSt (by decide) rfl rfl
      (by decide) (by decide) rfl⟩

lemma countEv_append (e : Ev) (a b : List Ev) :
    countEv e (a ++ b) = countEv e a + countEv e b := by
  induction a with
  | nil => simp [countEv]
  | cons x xs ih => simp [countEv, ih]; omega

lemma countEv_eq_zero (e : Ev) (l : List Ev) (h : e ∉ l) : countEv e l = 0 := by
  induction l with
  | nil => rfl
  | cons x xs ih =>
    simp only [List.mem_cons, not_or] at h
    simp only [countEv, ih h.2]
    rw [if_neg fun hx => h.1 hx.symm]

lemma no_abort_stop (stopAt : Option Nat) (s : SessSt) (u : Nat) :
    Ev.abort u ∉ (stop_stream_to_s3 stopAt s).1 := by
  intro h
  rcases stop_events stopAt s _ h with h2 | h2 <;> exact Ev.noConfusion h2

lemma no_abort_inner (stopAt : Option Nat) (uid : Nat) (fp : List Nat)
    (reads : List ReadRes) (buf pn : Nat) (s : SessSt) (u : Nat) :
    Ev.abort u ∉ (readLoop stopAt uid fp reads buf pn s).trace := by
  intro h
  rcases readLoop_trace_events stopAt uid fp reads buf pn s _ h with
    ⟨n, hn⟩ | ⟨a, b, hn⟩ | ⟨a, hn⟩ <;> exact Ev.noConfusion hn

set_option maxHeartbeats 1600000 in
lemma runSegment_other_uid (stopAt : Option Nat) (env : SegEnv) (uid : Nat) (s : SessSt)
    (u : Nat) (hne : u ≠ uid) :
    Ev.abort u ∉ (runSegment stopAt env uid s).trace
    ∧ noPartsOf u (runSegment stopAt env uid s).trace := by
  have hA := no_abort_inner stopAt uid env.failParts env.reads 0 1 s u
  have hP : ∀ pn sz, Ev.uploadPart u pn sz
      ∉ (readLoop stopAt uid env.failParts env.reads 0 1 s).trace := by
    intro pn sz hm
    rcases readLoop_trace_events stopAt uid env.failParts env.reads 0 1 s _ hm with
      ⟨n, hn⟩ | ⟨a, b, hn⟩ | ⟨a, hn⟩
    · exact Ev.noConfusion hn
    · injection hn with k1 k2 k3
      exact hne k1
    · exact Ev.noConfusion hn
  have hPE : ∀ pn, Ev.uploadPartErr u pn
      ∉ (readLoop stopAt uid env.failParts env.reads 0 1 s).trace := by
    intro pn hm
    rcases readLoop_trace_events stopAt uid env.failParts env.reads 0 1 s _ hm with
      ⟨n, hn⟩ | ⟨a, b, hn⟩ | ⟨a, hn⟩
    · exact Ev.noConfusion hn
    · exact Ev.noConfusion hn
    · injection hn with k1 k2
      exact hne k1
  have hSA := fun st => no_abort_stop stopAt st u
  have hSP : ∀ (st : SessSt) pn sz,
      Ev.uploadPart u pn sz ∉ (stop_stream_to_s3 stopAt st).1 := by
    intro st pn sz hm
    rcases stop_events stopAt st _ hm with h2 | h2 <;> exact Ev.noConfusion h2
  have hSPE : ∀ (st : SessSt) pn,
      Ev.uploadPartErr u pn ∉ (stop_stream_to_s3 stopAt st).1 := by
    intro st pn hm
    rcases stop_events stopAt st _ hm with h2 | h2 <;> exact Ev.noConfusion h2
  unfold noPartsOf
  by_cases hc : env.createOk = false
  · simp [runSegment, if_pos hc]
  · by_cases hl : env.launchOk = false
    · simp only [runSegment, if_neg hc, if_pos hl]
      simp [hSA, hSP, hSPE]
    · simp only [runSegment, if_neg hc, if_neg hl]
      generalize hrl : readLoop stopAt uid env.failParts env.reads 0 1 s = rl
      rw [hrl] at hA hP hPE
      split <;> (repeat' split) <;>
        simp [hA, hP, hPE, hSA, hSP, hSPE, hne, Ne.symm hne]

set_option maxHeartbeats 1600000 in
lemma runSegment_abort_shape (stopAt : Option Nat) (env : SegEnv) (uid : Nat) (s : SessSt)
    (u : Nat) :
    Ev.abort u ∉ (runSegment stopAt env uid s).trace
    ∨ (u = uid ∧ ∃ X, (runSegment stopAt env uid s).trace
        = X ++ [Ev.abort uid, Ev.terminate, Ev.wait] ∧ Ev.abort uid ∉ X) := by
  by_cases hu : u = uid
  case neg => exact Or.inl (runSegment_other_uid stopAt env uid s u hu).1
  subst hu
  have hA := no_abort_inner stopAt u env.failParts env.reads 0 1 s u
  have hSA := fun st => no_abort_stop stopAt st u
  by_cases hc : env.createOk = false
  · left; simp [runSegment, if_pos hc]
  · by_cases hl : env.launchOk = false
    · left
      simp only [runSegment, if_neg hc, if_pos hl]
      simp only [List.mem_cons, not_or]
      exact ⟨by simp, hSA s⟩
    · simp only [runSegment, if_neg hc, if_neg hl]
      generalize hrl : readLoop stopAt u env.failParts env.reads 0 1 s = rl
      rw [hrl] at hA
      split <;> (repeat' split) <;>
        first
          | (left; simp [hA, hSA]; done)
          | (right;
             refine ⟨by trivial, Ev.createUpload u :: Ev.procStart :: rl.trace, ?_, ?_⟩ <;>
               simp [hA]
             done)
          | (right;
             refine ⟨by trivial, Ev.createUpload u :: Ev.procStart ::
               (rl.trace ++ [Ev.uploadPartErr u rl.partNo]), ?_, ?_⟩ <;>
               simp [hA]
             done)
          | (right;
             refine ⟨by trivial, Ev.createUpload u :: Ev.procStart ::
               (rl.trace ++ [Ev.uploadPart u rl.partNo rl.buf, Ev.completeErr u]),
               ?_, ?_⟩ <;>
               simp [hA]
             done)
          | (right;
             refine ⟨by trivial, Ev.createUpload u :: Ev.procStart ::
               (rl.trace ++ [Ev.completeErr u]), ?_, ?_⟩ <;>
               simp [hA]
             done)

lemma runSegment_abort_count (stopAt : Option Nat) (env : SegEnv) (uid : Nat)
    (s : SessSt) (u : Nat) :
    countEv (Ev.abort u) (runSegment stopAt env uid s).trace ≤ 1 := by
  rcases runSegment_abort_shape stopAt env uid s u with hno | ⟨hu, X, hX, hnX⟩
  · rw [countEv_eq_zero _ _ hno]
    omega
  · subst hu
    rw [hX, countEv_append, countEv_eq_zero _ _ hnX]
    simp [countEv]

lemma uniqueSplit (e : Ev) :
    ∀ (X l1 tail l2 : List Ev), e ∉ X → e ∉ tail →
      X ++ e :: tail = l1 ++ e :: l2 → l1 = X ∧ l2 = tail := by
  intro X
  induction X with
  | nil =>
    intro l1 tail l2 _ htail heq
    cases l1 with
    | nil =>
      simp only [List.nil_append, List.cons.injEq, true_and] at heq
      exact ⟨rfl, heq.symm⟩
    | cons a l1' =>
      simp only [List.nil_append, List.cons_append, List.cons.injEq] at heq
      exfalso
      apply htail
      rw [heq.2]
      exact List.mem_append_right _ (List.mem_cons_self e l2)
  | cons x X' ih =>
    intro l1 tail l2 hX htail heq
    cases l1 with
    | nil =>
      simp only [List.cons_append, List.nil_append, List.cons.injEq] at heq
      exact absurd (heq.1 ▸ List.mem_cons_self x X') hX
    | cons a l1' =>
      simp only [List.cons_append, List.cons.injEq] at heq
      have hx : e ∉ X' := fun hh => hX (List.mem_cons_of_mem x hh)
      obtain ⟨h1, h2⟩ := ih l1' tail l2 hx htail heq.2
      refine ⟨?_, h2⟩
      rw [heq.1, h1]

lemma noPartsOf_append (u : Nat) (a b : List Ev) (ha : noPartsOf u a)
    (hb : noPartsOf u b) : noPartsOf u (a ++ b) := by
  intro pn sz
  constructor
  · intro hm
    rcases List.mem_append.mp hm with hm | hm
    · exact (ha pn sz).1 hm
    · exact (hb pn sz).1 hm
  · intro hm
    rcases List.mem_append.mp hm with hm | hm
    · exact (ha pn sz).2 hm
    · exact (hb pn sz).2 hm

lemma noPartsOf_tw (u : Nat) : noPartsOf u [Ev.terminate, Ev.wait] := by
  intro pn sz
  constructor <;> simp

lemma upload_uid_lt (stopAt : Option Nat) :
    ∀ (envs : List SegEnv) (uid : Nat) (s : SessSt) (u : Nat), u < uid →
      Ev.abort u ∉ (upload_to_s3_sync stopAt envs uid s).trace
      ∧ noPartsOf u (upload_to_s3_sync stopAt envs uid s).trace := by
  intro envs
  induction envs with
  | nil =>
    intro uid s u _
    simp [upload_to_s3_sync, noPartsOf]
  | cons env rest ih =>
    intro uid s u hu
    by_cases heff : effFlag stopAt s = false
    · simp [upload_to_s3_sync, heff, noPartsOf]
    · have h1 : (effFlag stopAt s = false) = False := by simp [heff]
      simp only [upload_to_s3_sync, h1, if_false]
      have hseg := runSegment_other_uid stopAt env uid (tick s) u (Nat.ne_of_lt hu)
      have hrest := ih (uid + 1) (runSegment stopAt env uid (tick s)).st u
        (Nat.lt_succ_of_lt hu)
      split
      · exact hseg
      · constructor
        · intro hm
          rcases List.mem_append.mp hm with hm | hm
          · exact hseg.1 hm
          · exact hrest.1 hm
        · exact noPartsOf_append u _ _ hseg.2 hrest.2

lemma runSegment_storage_fail_abort (stopAt : Option Nat) (env : SegEnv) (uid : Nat)
    (s : SessSt) (hc : env.createOk = true) (hl : env.launchOk = true)
    (hfail : storageFailureAt (readLoop stopAt uid env.failParts env.reads 0 1 s) env) :
    ∃ X, runSegment stopAt env uid s
        = { trace := Ev.createUpload uid :: Ev.procStart ::
              (X ++ [Ev.abort uid, Ev.terminate, Ev.wait]),
            st := (readLoop stopAt uid env.failParts env.reads 0 1 s).st, exn := none }
      ∧ Ev.abort uid ∉ X := by
  have h1 : (env.createOk = false) = False := by simp [hc]
  have h2 : (env.launchOk = false) = False := by simp [hl]
  have hA := no_abort_inner stopAt uid env.failParts env.reads 0 1 s uid
  simp only [runSegment, h1, h2, if_false]
  unfold storageFailureAt at hfail
  generalize hrl : readLoop stopAt uid env.failParts env.reads 0 1 s = rl at hfail hA ⊢
  rcases hfail with hex | ⟨hex, hf⟩
  · rw [hex]
    exact ⟨rl.trace, rfl, hA⟩
  · by_cases hbuf : 0 < rl.buf
    · by_cases hfp : rl.partNo ∈ env.failParts
      · rcases hex with hex | hex <;> rw [hex] <;>
          simp only [if_pos hbuf, if_pos hfp] <;>
          exact ⟨rl.trace ++ [Ev.uploadPartErr uid rl.partNo],
            by simp, by simp [hA]⟩
      · have hcoF : (env.completeOk = true) = False := by
          rcases hf with ⟨hb2, hfp2⟩ | hco
          · exact absurd hfp2 hfp
          · simp [hco]
        rcases hex with hex | hex <;> rw [hex] <;>
          simp only [if_pos hbuf, if_neg hfp, hcoF, if_false] <;>
          exact ⟨rl.trace ++ [Ev.uploadPart uid rl.partNo rl.buf, Ev.completeErr uid],
            by simp, by simp [hA]⟩
    · have hcoF : (env.completeOk = true) = False := by
        rcases hf with ⟨hb2, hfp2⟩ | hco
        · exact absurd hb2 hbuf
        · simp [hco]
      rcases hex with hex | hex <;> rw [hex] <;>
        simp only [if_neg hbuf, hcoF, if_false] <;>
        exact ⟨rl.trace ++ [Ev.completeErr uid], by simp, by simp [hA]⟩

/-- Claim C1, amended: after any `upload_part` or
`complete_multipart_upload` failure — whether the part upload failed
mid-loop, the final-flush part upload failed, or the finalize call
failed — the transaction is aborted and the capture process
terminated, but the session stays Active: the `ClientError` handler
does not clear the run flag, so with no external stop pending the loop
automatically opens the next upload transaction; no external start is
required (only read/OS errors stop the session). -/
theorem storage_failure_keeps_session_active (env e2 : SegEnv) (rest : List SegEnv)
    (uid : Nat) (s : SessSt) (hon : s.isOn = true)
    (hc : env.createOk = true) (hl : env.launchOk = true) (h2 : e2.createOk = true)
    (hfail : storageFailureAt
      (readLoop none uid env.failParts env.reads 0 1 (tick s)) env) :
    Ev.abort uid ∈ (upload_to_s3_sync none (env :: e2 :: rest) uid s).trace
    ∧ Ev.createUpload (uid + 1)
        ∈ (upload_to_s3_sync none (env :: e2 :: rest) uid s).trace := by
  have heff : effFlag none s = true := by simp [effFlag, hon]
  have h1 : (effFlag none s = false) = False := by simp [heff]
  obtain ⟨X, hseg, hX⟩ := runSegment_storage_fail_abort none env uid (tick s) hc hl hfail
  simp only [upload_to_s3_sync, h1, if_false, hseg]
  constructor
  · simp
  · have hisOn := readLoop_isOn none uid env.failParts env.reads 0 1 (tick s)
    have hon2 : effFlag none
        (readLoop none uid env.failParts env.reads 0 1 (tick s)).st = true := by
      have htk : (tick s).isOn = true := by simp [tick, hon]
      simp [effFlag, hisOn, htk]
    exact List.mem_append_right _
      (upload_create_mem none e2 rest (uid + 1) _ hon2 h2)

/-- Witness for the amended C1 on the finalize-failure mode: the
segment of `finEnv` fails in `complete_multipart_upload`, aborts, and
the loop opens upload transaction 1 right away. -/
theorem storage_failure_keeps_session_active_witness :
    activeSt.isOn = true
    ∧ storageFailureAt
        (readLoop none 0 finEnv.failParts finEnv.reads 0 1 (tick activeSt)) finEnv
    ∧ Ev.abort 0 ∈ (upload_to_s3_sync none [finEnv, okEnv] 0 activeSt).trace
    ∧ Ev.createUpload 1 ∈ (upload_to_s3_sync none [finEnv, okEnv] 0 activeSt).trace :=
  ⟨rfl, by unfold storageFailureAt; decide,
    storage_failure_keeps_session_active finEnv okEnv [] 0 activeSt rfl rfl rfl rfl
      (by unfold storageFailureAt; decide)⟩

/-- Claim C5, amended: in every run of the session loop, each upload
transaction is aborted exactly once upon an `upload_part` or
`complete_multipart_upload` failure — at most once in every run
whatsoever, and at least once in the run of any launched segment with
a storage failure (mid-loop part, final-flush part, or finalize) — and
after an abort no further `upload_part` call (successful or failing)
is made with that transaction's upload id; but the triggering error
does not surface beyond the segment loop: it is caught and logged
there and the loop proceeds with a fresh transaction (see the
counterexample). -/
theorem abort_once_no_parts_after (stopAt : Option Nat) (envs : List SegEnv) :
    (∀ (uid : Nat) (s : SessSt) (u : Nat),
      countEv (Ev.abort u) (upload_to_s3_sync stopAt envs uid s).trace ≤ 1
      ∧ ∀ l1 l2,
          (upload_to_s3_sync stopAt envs uid s).trace = l1 ++ Ev.abort u :: l2 →
          noPartsOf u l2)
    ∧ ∀ (env : SegEnv) (rest : List SegEnv) (uid : Nat) (s : SessSt),
        envs = env :: rest → effFlag stopAt s = true →
        env.createOk = true → env.launchOk = true →
        storageFailureAt
          (readLoop stopAt uid env.failParts env.reads 0 1 (tick s)) env →
        countEv (Ev.abort uid) (upload_to_s3_sync stopAt envs uid s).trace = 1 := by
  constructor
  case right =>
    intro env rest uid s henv heff hc hl hfail
    subst henv
    have h1 : (effFlag stopAt s = false) = False := by simp [heff]
    obtain ⟨X, hseg, hX⟩ :=
      runSegment_storage_fail_abort stopAt env uid (tick s) hc hl hfail
    have hz := (upload_uid_lt stopAt rest (uid + 1)
      (readLoop stopAt uid env.failParts env.reads 0 1 (tick s)).st uid
      (Nat.lt_succ_self uid)).1
    simp only [upload_to_s3_sync, h1, if_false, hseg]
    rw [countEv_append, countEv_eq_zero _ _ hz]
    simp [countEv, countEv_append, countEv_eq_zero _ _ hX]
  case left =>
  induction envs with
  | nil =>
    intro uid s u
    constructor
    · simp [upload_to_s3_sync, countEv]
    · intro l1 l2 h
      simp only [upload_to_s3_sync] at h
      cases l1 <;> simp at h
  | cons env rest ih =>
    intro uid s u
    by_cases heff : effFlag stopAt s = false
    · constructor
      · simp [upload_to_s3_sync, heff, countEv]
      · intro l1 l2 h
        simp only [upload_to_s3_sync, if_pos heff] at h
        cases l1 <;> simp at h
    · have h1 : (effFlag stopAt s = false) = False := by simp [heff]
      rcases hexn : (runSegment stopAt env uid (tick s)).exn with _ | e
      · have htr : (upload_to_s3_sync stopAt (env :: rest) uid s).trace
            = (runSegment stopAt env uid (tick s)).trace
              ++ (upload_to_s3_sync stopAt rest (uid + 1)
                    (runSegment stopAt env uid (tick s)).st).trace := by
          simp only [upload_to_s3_sync, h1, if_false, hexn]
        have hrest := ih (uid + 1) (runSegment stopAt env uid (tick s)).st u
        constructor
        · rw [htr, countEv_append]
          by_cases hu : u = uid
          · have hz := (upload_uid_lt stopAt rest (uid + 1)
              (runSegment stopAt env uid (tick s)).st u (by omega)).1
            rw [countEv_eq_zero _ _ hz]
            have hc1 := runSegment_abort_count stopAt env uid (tick s) u
            omega
          · have hz := (runSegment_other_uid stopAt env uid (tick s) u hu).1
            rw [countEv_eq_zero _ _ hz]
            have hc2 := hrest.1
            omega
        · intro l1 l2 heq2
          rw [htr] at heq2
          rcases List.append_eq_append_iff.mp heq2 with ⟨m, hm1, hm2⟩ | ⟨m, hm1, hm2⟩
          · exact hrest.2 m l2 hm2
          · cases m with
            | nil => exact hrest.2 [] l2 hm2.symm
            | cons h0 m' =>
              simp only [List.cons_append, List.cons.injEq] at hm2
              obtain ⟨hh0, hl2⟩ := hm2
              rw [← hh0] at hm1
              rcases runSegment_abort_shape stopAt env uid (tick s) u with
                hno | ⟨rfl, X, hX, hnX⟩
              · exfalso
                apply hno
                rw [hm1]
                exact List.mem_append_right _ (List.mem_cons_self _ _)
              · obtain ⟨-, hm'⟩ := uniqueSplit (Ev.abort u) X l1 [Ev.terminate, Ev.wait]
                  m' hnX (by simp) (by rw [← hX, hm1])
                rw [hl2, hm']
                exact noPartsOf_append u _ _ (noPartsOf_tw u)
                  (upload_uid_lt stopAt rest (u + 1)
                    (runSegment stopAt env u (tick s)).st u (Nat.lt_succ_self u)).2
      · have htr : (upload_to_s3_sync stopAt (env :: rest) uid s).trace
            = (runSegment stopAt env uid (tick s)).trace := by
          simp only [upload_to_s3_sync, h1, if_false, hexn]
        constructor
        · rw [htr]
          exact runSegment_abort_count stopAt env uid (tick s) u
        · intro l1 l2 heq2
          rw [htr] at heq2
          rcases runSegment_abort_shape stopAt env uid (tick s) u with
            hno | ⟨rfl, X, hX, hnX⟩
          · exfalso
            apply hno
            rw [heq2]
            exact List.mem_append_right _ (List.mem_cons_self _ _)
          · obtain ⟨-, hm'⟩ := uniqueSplit (Ev.abort u) X l1 [Ev.terminate, Ev.wait]
              l2 hnX (by simp) (by rw [← hX, heq2])
            rw [hm']
            exact noPartsOf_tw u

/-- Witness for the amended C5: the failing run aborts exactly once
and the suffix after the abort contains no part upload for that
upload id. -/
theorem abort_once_no_parts_after_witness :
    countEv (Ev.abort 0) (upload_to_s3_sync none [failEnv] 0 activeSt).trace ≤ 1
    ∧ Ev.uploadPart 0 2 1 ∉ ([Ev.terminate, Ev.wait] : List Ev)
    ∧ countEv (Ev.abort 0) (upload_to_s3_sync none [failEnv] 0 activeSt).trace = 1 :=
  ⟨((abort_once_no_parts_after none [failEnv]).1 0 activeSt 0).1,
    (((abort_once_no_parts_after none [failEnv]).1 0 activeSt 0).2
      [Ev.createUpload 0, Ev.procStart, Ev.readChunk readUnit, Ev.readChunk readUnit,
        Ev.readChunk readUnit, Ev.readChunk readUnit, Ev.readChunk readUnit,
        Ev.readChunk readUnit, Ev.uploadPartErr 0 1]
      [Ev.terminate, Ev.wait] (by decide) 2 1).1,
    (abort_once_no_parts_after none [failEnv]).2 failEnv [] 0 activeSt rfl (by decide)
      rfl rfl (by unfold storageFailureAt; decide)⟩

/-- The error-surfacing part of claim C5 is refuted on a concrete run:
after the failed part upload and the abort, no exception escapes
`upload_to_s3_sync` (`exn = none`) and the loop opens a fresh
transaction — the error is swallowed at the segment loop and never
surfaces beyond it. -/
theorem error_swallowed_counterexample :
    (upload_to_s3_sync none [failEnv, okEnv] 0 activeSt).exn = none
    ∧ Ev.abort 0 ∈ (upload_to_s3_sync none [failEnv, okEnv] 0 activeSt).trace
    ∧ Ev.createUpload 1 ∈ (upload_to_s3_sync none [failEnv, okEnv] 0 activeSt).trace := by
  decide

/-- Claim C10: configuration validation accepts the stream URLs iff
every URL begins with one of the two accepted streaming-transport
scheme prefixes; any other prefix raises the configuration error, and
then no entry (hence no session or entity) is created. -/
theorem stream_url_validation (urls : List String) :
    (validate_streams urls = ValidateRes.ok
      ↔ ∀ u ∈ urls,
          url_startswith u schemeRtsp = true ∨ url_startswith u schemeRtmp = true)
    ∧ (validate_streams urls ≠ ValidateRes.ok → async_step_user urls = none) := by
  constructor
  · induction urls with
    | nil => simp [validate_streams]
    | cons url rest ih =>
      by_cases h : (!url_startswith url schemeRtsp
          && !url_startswith url schemeRtmp) = true
      · simp only [validate_streams, if_pos h]
        simp only [Bool.and_eq_true, Bool.not_eq_true'] at h
        constructor
        · intro hc
          exact absurd hc (by simp)
        · intro hall
          rcases hall url (List.mem_cons_self url rest) with h2 | h2 <;>
            simp [h2] at h
      · simp only [validate_streams, if_neg h]
        simp only [Bool.and_eq_true, Bool.not_eq_true', not_and_or,
          Bool.not_eq_false] at h
        rw [ih]
        constructor
        · intro hall u hu
          rcases List.mem_cons.mp hu with rfl | hu
          · exact h
          · exact hall u hu
        · intro hall u hu
          exact hall u (List.mem_cons_of_mem url hu)
  · intro hne
    unfold async_step_user
    rcases hv : validate_streams urls with _ | _
    · exact absurd hv hne
    · simp

/-- Witness for C10 on a rejected http URL. -/
theorem stream_url_validation_witness :
    validate_streams [badUrl] ≠ ValidateRes.ok ∧ async_step_user [badUrl] = none :=
  ⟨by decide, (stream_url_validation [badUrl]).2 (by decide)⟩
